import Mathlib

/-!
Shallow embedding of the solidity LSP core (liblsp/Server.h and
libsolidity/lsp/LanguageServer.h) together with the spec's model of the
parts of the engine whose implementation files are not in the source
tree (the Server message loop, the dispatch-table construction and the
VFS document store).  Definitions taken from code present in the headers
keep the source names; definitions for missing implementation files are
marked `Modelled from the spec:`.
-/

namespace LSP

/-- `enum class Trace { Off, Messages, Verbose }` from liblsp/Server.h. -/
inductive Trace
  | Off
  | Messages
  | Verbose
deriving DecidableEq, Repr

/-- The JSON-RPC / LSP error-code taxonomy of the engine (spec section 6:
ParseError, InvalidRequest, MethodNotFound, InvalidParams, InternalError,
ServerNotInitialized, InvalidRange, RequestFailed). -/
inductive ErrorCode
  | ParseError
  | InvalidRequest
  | MethodNotFound
  | InvalidParams
  | InternalError
  | ServerNotInitialized
  | InvalidRange
  | RequestFailed
deriving DecidableEq, Repr

/-- `MessageId`: tagged union of integer, string or absent (notifications
carry no id). -/
inductive MessageId
  | int (i : Int)
  | str (s : String)
  | absent
deriving DecidableEq, Repr

/-- `Position`: zero-based (line, character). -/
structure Position where
  line : Nat
  character : Nat
deriving DecidableEq, Repr

/-- `Range`: pair of positions (start, end). -/
structure Range where
  start : Position
  stop : Position
deriving DecidableEq, Repr

/-- A URI is kept as its textual form. -/
abbrev URI := String

/-- `struct Location { URI uri; Range range; }` from liblsp/Server.h. -/
structure Location where
  uri : URI
  range : Range
deriving DecidableEq, Repr

/-- `enum class DocumentHighlightKind` from liblsp/Server.h. -/
inductive DocumentHighlightKind
  | Unspecified
  | Text
  | Read
  | Write
deriving DecidableEq, Repr

/-- `struct DocumentHighlight { Range range; DocumentHighlightKind kind; }`. -/
structure DocumentHighlight where
  range : Range
  kind : DocumentHighlightKind := DocumentHighlightKind.Unspecified
deriving DecidableEq, Repr

/-- `struct DocumentPosition { URI uri; Position position; }`. -/
structure DocumentPosition where
  uri : URI
  position : Position
deriving DecidableEq, Repr

/-- `struct WorkspaceFolder { std::string name; URI uri; }`. -/
structure WorkspaceFolder where
  name : String
  uri : URI
deriving DecidableEq, Repr

/-- `struct ServerId { std::string serverName; std::string serverVersion; }`. -/
structure ServerId where
  serverName : String
  serverVersion : String
deriving DecidableEq, Repr

/-- A generic JSON value (the `Json::Value` boundary type): a recursive
tagged union over null/bool/number/string/array/object. -/
inductive JsonValue
  | null
  | bool (b : Bool)
  | num (n : Int)
  | str (s : String)
  | arr (elems : List JsonValue)
  | obj (fields : List (String × JsonValue))

/-! ## Document store (VFS)

`liblsp/VFS.h` is not part of the source tree (only `m_vfs` and the
capability-hook declarations refer to it), so the store is modelled from
spec section 4.2. -/

/-- Modelled from the spec: a document owned by the Document Store —
URI, languageId, optional version and content; `closed` marks a document
that was closed but is retained (spec section 3 retention invariant).
Content is a character list, standing in for the C++ byte string. -/
structure File where
  uri : URI
  languageId : String
  version : Option Int
  content : List Char
  closed : Bool := false
deriving DecidableEq, Repr

/-- Modelled from the spec: errors of the Document Store operations of
spec section 4.2 (`DocumentAlreadyOpen`, `UnknownDocument`,
`InvalidRange`, `NotFound`). -/
inductive VfsError
  | DocumentAlreadyOpen
  | UnknownDocument
  | InvalidRange
  | NotFound
deriving DecidableEq, Repr

/-- Modelled from the spec: the in-memory Document Store, an association
list from URI to document (`liblsp/VFS.h` is missing from the tree). -/
abbrev VFS := List (URI × File)

/-- Split a character list into its lines at newline characters; a text
with no newline is one line, and a trailing newline yields a final empty
line. -/
def splitLines (cs : List Char) : List (List Char) :=
  cs.foldr
    (fun c acc =>
      if c = '\n' then [] :: acc
      else
        match acc with
        | [] => [[c]]
        | l :: ls => (c :: l) :: ls)
    [[]]

/-- Modelled from the spec: translate a zero-based (line, character)
position into a flat offset into the content, validating it against the
current content bounds; `none` when the position lies outside the
document. -/
def posToOffset (content : List Char) (p : Position) : Option Nat :=
  let lines := splitLines content
  match lines.get? p.line with
  | none => none
  | some l =>
      if p.character ≤ l.length then
        some ((((lines.take p.line).map List.length).sum + p.line) + p.character)
      else none

/-- Look up a document by URI (`get(uri) → Document | NotFound`). -/
def VFS.get (vfs : VFS) (uri : URI) : Option File :=
  match vfs with
  | [] => none
  | (k, f) :: rest => if k = uri then some f else VFS.get rest uri

/-- Insert or replace the file stored under a URI, keeping the position
of an existing entry. -/
def VFS.insertFile (vfs : VFS) (uri : URI) (f : File) : VFS :=
  match vfs with
  | [] => [(uri, f)]
  | (k, g) :: rest =>
      if k = uri then (k, f) :: rest
      else (k, g) :: VFS.insertFile rest uri f

/-- Modelled from the spec: `open(uri, languageId, version, content)`;
re-opening replaces content and version unconditionally (the client is
authoritative). -/
def VFS.openDoc (vfs : VFS) (uri : URI) (languageId : String)
    (version : Int) (content : List Char) : VFS :=
  vfs.insertFile uri
    { uri := uri, languageId := languageId, version := some version,
      content := content, closed := false }

/-- Modelled from the spec: `applyFull(uri, version?, content)` replaces
content wholesale; fails with `UnknownDocument` if the URI was never
opened. -/
def VFS.applyFull (vfs : VFS) (uri : URI) (version : Option Int)
    (content : List Char) : Except VfsError VFS :=
  match vfs.get uri with
  | none => .error .UnknownDocument
  | some f =>
      .ok (vfs.insertFile uri
        { f with content := content, version := version <|> f.version })

/-- Modelled from the spec: `applyRange(uri, version?, range, text)`
replaces the text strictly inside `range` with `text`; the range is
validated against current content bounds and an out-of-range request
fails with `InvalidRange` without mutating the document. -/
def VFS.applyRange (vfs : VFS) (uri : URI) (version : Option Int)
    (range : Range) (text : List Char) : Except VfsError VFS :=
  match vfs.get uri with
  | none => .error .UnknownDocument
  | some f =>
      match posToOffset f.content range.start, posToOffset f.content range.stop with
      | some a, some b =>
          if a ≤ b then
            .ok (vfs.insertFile uri
              { f with
                  content := f.content.take a ++ text ++ f.content.drop b,
                  version := version <|> f.version })
          else .error .InvalidRange
      | _, _ => .error .InvalidRange

/-- Modelled from the spec: `close(uri)` marks a document closed but
retains its content (spec section 3 retention invariant: closed does not
mean forgotten). -/
def VFS.close (vfs : VFS) (uri : URI) : VFS :=
  match vfs with
  | [] => []
  | (k, f) :: rest =>
      if k = uri then (k, { f with closed := true }) :: rest
      else (k, f) :: VFS.close rest uri

/-- The Document Store operations, as one sum type, for stating
store-wide invariants; failing operations leave the store unchanged. -/
inductive VfsOp
  | openOp (uri : URI) (languageId : String) (version : Int) (content : List Char)
  | fullOp (uri : URI) (version : Option Int) (content : List Char)
  | rangeOp (uri : URI) (version : Option Int) (range : Range) (text : List Char)
  | closeOp (uri : URI)

/-- Apply one Document Store operation; a failed `applyFull`/`applyRange`
leaves the store as it was (all-or-nothing). -/
def VFS.applyOp (vfs : VFS) : VfsOp → VFS
  | .openOp uri lid ver content => vfs.openDoc uri lid ver content
  | .fullOp uri ver content =>
      match vfs.applyFull uri ver content with
      | .ok v => v
      | .error _ => vfs
  | .rangeOp uri ver range text =>
      match vfs.applyRange uri ver range text with
      | .ok v => v
      | .error _ => vfs
  | .closeOp uri => vfs.close uri

/-! ## Protocol Engine (Server)

`liblsp/Server.h` declares the engine's surface: the message loop
(`run`), `handleMessage`, the protected `handle_*` methods, the
capability hooks (with their inline safe defaults), the `HandlerMap`
dispatch table and the private fields `m_shutdownRequested`,
`m_exitRequested`, `m_trace`.  The implementation file (Server.cpp) is
not in the source tree, so the loop, the dispatch and the lifecycle
gating are modelled from spec sections 4.1, 4.3 and 7. -/

/-- Modelled from the spec: the lifecycle state machine of section 4.1 —
Uninitialized, a pending state between the `initialize` response and the
`initialized` notification, Initialized, ShutdownRequested, Exited. -/
inductive Lifecycle
  | Uninitialized
  | PendingInitialized
  | Initialized
  | ShutdownRequested
  | Exited
deriving DecidableEq, Repr

/-- The handlers registered in the dispatch table, one tag per
`handle_*` method of liblsp/Server.h plus the `initialized` and
`shutdown` entries of the spec's inbound method surface (section 6). -/
inductive HandlerTag
  | initializeRequest
  | initializedNotification
  | shutdownRequest
  | exitNotification
  | didChangeConfiguration
  | didOpen
  | didChange
  | didClose
  | definition
  | documentHighlight
  | references
deriving DecidableEq, Repr

/-- `using HandlerMap = std::unordered_map<std::string, Handler>`,
embedded as an association list from method name to handler tag. -/
abbrev HandlerMap := List (String × HandlerTag)

/-- Registration into the dispatch table: assignment semantics of the
map — replace the handler if the method name is present, append
otherwise (so a later registration of the same name wins). -/
def registerHandler (m : HandlerMap) (name : String) (h : HandlerTag) : HandlerMap :=
  match m with
  | [] => [(name, h)]
  | (k, v) :: rest =>
      if k = name then (k, h) :: rest
      else (k, v) :: registerHandler rest name h

/-- Dispatch-table lookup: exact string match on the method name. -/
def lookupHandler (m : HandlerMap) (name : String) : Option HandlerTag :=
  match m with
  | [] => none
  | (k, v) :: rest => if k = name then some v else lookupHandler rest name

/-- Modelled from the spec: the registrations performed once at Server
construction (the constructor body is not in the tree); the method names
are the inbound surface of spec section 6. -/
def registrations : List (String × HandlerTag) :=
  [ ("initialize", .initializeRequest),
    ("initialized", .initializedNotification),
    ("workspace/didChangeConfiguration", .didChangeConfiguration),
    ("textDocument/didOpen", .didOpen),
    ("textDocument/didChange", .didChange),
    ("textDocument/didClose", .didClose),
    ("textDocument/definition", .definition),
    ("textDocument/documentHighlight", .documentHighlight),
    ("textDocument/references", .references),
    ("shutdown", .shutdownRequest),
    ("exit", .exitNotification) ]

/-- The dispatch table built once at construction, by folding the
registrations into an empty map. -/
def buildHandlerMap : HandlerMap :=
  registrations.foldl (fun m p => registerHandler m p.1 p.2) []

/-- The decoded parameters of an incoming message.  The Message Codec
(an external collaborator, spec section 2) is abstracted: parameters
arrive already decoded into the payload each handler consumes, with
`invalid` standing for parameters the codec could not decode for the
method. -/
inductive Params
  | noParams
  | invalid
  | initializeParams (rootUri : URI) (workspaceFolders : List WorkspaceFolder)
  | configParams (trace : Option Trace)
  | didOpenParams (uri : URI) (languageId : String) (version : Int) (content : List Char)
  | didChangeFullParams (uri : URI) (version : Option Int) (content : List Char)
  | didChangeRangeParams (uri : URI) (version : Option Int) (range : Range) (text : List Char)
  | didCloseParams (uri : URI)
  | positionParams (pos : DocumentPosition)
deriving DecidableEq, Repr

/-- One incoming JSON-RPC message: id (absent for a notification),
method name and decoded parameters. -/
structure Message where
  id : MessageId
  method : String
  params : Params
deriving DecidableEq, Repr

/-- A message is a notification exactly when it carries no id. -/
def Message.isNotification (m : Message) : Bool :=
  match m.id with
  | .absent => true
  | _ => false

/-- One outbound response: a success or an error response, keyed by the
id of the request it answers. -/
inductive Outbound
  | success (id : MessageId)
  | errorResp (id : MessageId) (code : ErrorCode)
deriving DecidableEq, Repr

/-- The Server state: the dispatch table `m_handlers`, the flags
`m_shutdownRequested`, `m_exitRequested` and the trace level `m_trace`
(private fields of liblsp/Server.h with their member initializers), the
spec's lifecycle state, the Document Store `m_vfs` of the concrete
LanguageServer, and a hook-call counter instrumenting every capability
hook invocation (spec section 8 verifies hook silence through such a
counter). -/
structure ServerState where
  m_handlers : HandlerMap
  m_shutdownRequested : Bool := false
  m_exitRequested : Bool := false
  m_trace : Trace := Trace.Off
  lifecycle : Lifecycle := Lifecycle.Uninitialized
  m_vfs : VFS := []
  hookCalls : Nat := 0
deriving DecidableEq, Repr

/-- The state of a freshly constructed Server: member initializers of
liblsp/Server.h lines 246–248 (`m_shutdownRequested = false`,
`m_exitRequested = false`, `m_trace = Trace::Off`) and the dispatch
table the constructor builds. -/
def initialServerState : ServerState :=
  { m_handlers := buildHandlerMap }

/-- `Trace trace() const noexcept { return m_trace; }` from
liblsp/Server.h line 227: a const accessor returning the stored trace
level; being const it cannot modify the server state. -/
def Server.traceLevel (s : ServerState) : Trace :=
  s.m_trace

/-- Build the optional error response for a message: notifications get
no response, requests an error response carrying their own id. -/
def respondError (m : Message) (c : ErrorCode) : Option Outbound :=
  if m.isNotification then none else some (.errorResp m.id c)

/-- Modelled from the spec: map a Document Store failure to the
protocol error answering the offending message (spec section 7(f):
store inconsistencies are reported as a request error). -/
def vfsErrorCode : VfsError → ErrorCode
  | .InvalidRange => .InvalidRange
  | .UnknownDocument => .RequestFailed
  | .DocumentAlreadyOpen => .RequestFailed
  | .NotFound => .RequestFailed

/-- The LanguageServer `documentContentUpdated` range-patch hook
(libsolidity/lsp/LanguageServer.h line 64): apply the range patch to the
store; on failure the state is left untouched and the error reported. -/
def LanguageServer.documentContentUpdatedRange (s : ServerState) (uri : URI)
    (version : Option Int) (range : Range) (text : List Char) :
    ServerState × Option VfsError :=
  match s.m_vfs.applyRange uri version range text with
  | .ok v => ({ s with m_vfs := v }, none)
  | .error e => (s, some e)

/-- Modelled from the spec: run the handler a dispatch-table tag names
(the `handle_*` bodies are not in the tree).  Every capability hook
invocation increments `hookCalls`; lifecycle transitions follow spec
section 4.1; Document Store mutation happens only here. -/
def execHandler (tag : HandlerTag) (s : ServerState) (m : Message) :
    ServerState × Option Outbound :=
  match tag with
  | .initializeRequest =>
      ({ s with lifecycle := .PendingInitialized, hookCalls := s.hookCalls + 1 },
       some (.success m.id))
  | .initializedNotification =>
      ({ s with lifecycle := .Initialized, hookCalls := s.hookCalls + 1 }, none)
  | .shutdownRequest =>
      ({ s with lifecycle := .ShutdownRequested, m_shutdownRequested := true },
       some (.success m.id))
  | .exitNotification =>
      ({ s with lifecycle := .Exited, m_exitRequested := true }, none)
  | .didChangeConfiguration =>
      match m.params with
      | .configParams t =>
          ({ s with hookCalls := s.hookCalls + 1, m_trace := t.getD s.m_trace }, none)
      | _ => ({ s with hookCalls := s.hookCalls + 1 }, none)
  | .didOpen =>
      match m.params with
      | .didOpenParams uri lid ver content =>
          ({ s with hookCalls := s.hookCalls + 1,
                    m_vfs := s.m_vfs.openDoc uri lid ver content }, none)
      | _ => (s, respondError m .InvalidParams)
  | .didChange =>
      match m.params with
      | .didChangeFullParams uri ver content =>
          match s.m_vfs.applyFull uri ver content with
          | .ok v => ({ s with hookCalls := s.hookCalls + 1, m_vfs := v }, none)
          | .error e =>
              ({ s with hookCalls := s.hookCalls + 1 }, respondError m (vfsErrorCode e))
      | .didChangeRangeParams uri ver range text =>
          match s.m_vfs.applyRange uri ver range text with
          | .ok v => ({ s with hookCalls := s.hookCalls + 1, m_vfs := v }, none)
          | .error e =>
              ({ s with hookCalls := s.hookCalls + 1 }, respondError m (vfsErrorCode e))
      | _ => (s, respondError m .InvalidParams)
  | .didClose =>
      match m.params with
      | .didCloseParams uri =>
          ({ s with hookCalls := s.hookCalls + 1, m_vfs := s.m_vfs.close uri }, none)
      | _ => (s, respondError m .InvalidParams)
  | .definition =>
      ({ s with hookCalls := s.hookCalls + 1 }, some (.success m.id))
  | .documentHighlight =>
      ({ s with hookCalls := s.hookCalls + 1 }, some (.success m.id))
  | .references =>
      ({ s with hookCalls := s.hookCalls + 1 }, some (.success m.id))

/-- Modelled from the spec: routing (section 4.4): look the method name
up in the dispatch table; an unknown method yields a `MethodNotFound`
error response for a request, a silent drop for a notification. -/
def dispatch (s : ServerState) (m : Message) : ServerState × Option Outbound :=
  match lookupHandler s.m_handlers m.method with
  | none =>
      if m.isNotification then (s, none)
      else (s, some (.errorResp m.id .MethodNotFound))
  | some tag => execHandler tag s m

/-- Modelled from the spec: `Server::handleMessage` (declared at
liblsp/Server.h lines 133–137; body not in the tree).  Lifecycle gating
of spec section 4.1: before `initialize`, every other request fails with
`ServerNotInitialized` without reaching any handler, and notifications
are silently dropped except `exit`; after `shutdown`, only `exit` is
legal — other requests are answered `InvalidRequest`, notifications
ignored; otherwise the message is routed through the dispatch table. -/
def handleMessage (s : ServerState) (m : Message) : ServerState × Option Outbound :=
  match s.lifecycle with
  | .Uninitialized =>
      if m.method = "initialize" then dispatch s m
      else if m.method = "exit" ∧ m.isNotification = true then
        execHandler .exitNotification s m
      else if m.isNotification then (s, none)
      else (s, some (.errorResp m.id .ServerNotInitialized))
  | .ShutdownRequested =>
      if m.method = "exit" then execHandler .exitNotification s m
      else if m.isNotification then (s, none)
      else (s, some (.errorResp m.id .InvalidRequest))
  | .Exited => (s, none)
  | .PendingInitialized => dispatch s m
  | .Initialized => dispatch s m

/-! ## The message loop (`Server::run`) -/

/-- Modelled from the spec: the fixed consecutive-failure threshold of
the loop (liblsp/Server.h lines 125–131 document the shutdown condition
"maximum number of consecutive failures has been exceeded"; the concrete
value is not in the tree). -/
def maxConsecutiveFailures : Nat := 10

/-- One read of the transport: either a successfully decoded message or
a failed read (transport error or malformed envelope). -/
inductive ReadResult
  | ok (m : Message)
  | failed
deriving DecidableEq, Repr

/-- The result of one loop iteration: keep looping with new state and
failure counter, terminate because `exit` was handled (carrying the
normal/abnormal flag `run` returns), or terminate because the
consecutive-failure threshold was exceeded. -/
inductive StepResult
  | keepRunning (s : ServerState) (fails : Nat)
  | exitTerm (normal : Bool)
  | failTerm
deriving DecidableEq, Repr

/-- Modelled from the spec: one iteration of `Server::run`'s loop.  A
failed read increments the consecutive-failure counter and terminates
the loop abnormally once the counter exceeds the threshold; a handled
message resets the counter to zero, and when the handler requested exit
the loop terminates, reporting normal termination exactly when a
`shutdown` request had been handled before. -/
def runStep (s : ServerState) (fails : Nat) : ReadResult → StepResult
  | .failed =>
      if fails + 1 > maxConsecutiveFailures then .failTerm
      else .keepRunning s (fails + 1)
  | .ok m =>
      let s1 := (handleMessage s m).1
      if s1.m_exitRequested then .exitTerm s1.m_shutdownRequested
      else .keepRunning s1 0

/-- The possible outcomes of driving the loop over a finite list of
reads: terminated via `exit` (with `run`'s boolean), terminated
abnormally via the failure threshold, or input exhausted while the
connection is still open. -/
inductive RunOutcome
  | exited (normal : Bool)
  | failedThreshold
  | stillRunning (s : ServerState) (fails : Nat)
deriving DecidableEq, Repr

/-- Modelled from the spec: `Server::run` (liblsp/Server.h lines
125–131), driven over a finite list of transport reads. -/
def runLoop (s : ServerState) (fails : Nat) : List ReadResult → RunOutcome
  | [] => .stillRunning s fails
  | r :: rest =>
      match runStep s fails r with
      | .keepRunning s1 f1 => runLoop s1 f1 rest
      | .exitTerm n => .exited n
      | .failTerm => .failedThreshold

/-! ## Default capability hooks

liblsp/Server.h lines 144–200 give every overridable capability hook an
inline default: the notification-style hooks have empty bodies `{}` (no
state change) and the query hooks return the empty list `{}`.  A member
function with an empty body is embedded as the identity on the server
state. -/

/-- `virtual void initialized() {}` — default: no state change. -/
def Server.initializedDefault (s : ServerState) : ServerState :=
  s

/-- `virtual void changeConfiguration(Json::Value const&) {}` — default:
no state change. -/
def Server.changeConfigurationDefault (s : ServerState) (_settings : JsonValue) :
    ServerState :=
  s

/-- `virtual void documentOpened(...) {}` — default: no state change. -/
def Server.documentOpenedDefault (s : ServerState) (_uri : URI)
    (_languageId : String) (_version : Int) (_contents : List Char) : ServerState :=
  s

/-- `virtual void documentContentUpdated(uri, version?, fullContentChange) {}`
— default: no state change. -/
def Server.documentContentUpdatedFullDefault (s : ServerState) (_uri : URI)
    (_version : Option Int) (_fullContentChange : List Char) : ServerState :=
  s

/-- `virtual void documentContentUpdated(uri) {}` — default: no state
change. -/
def Server.documentContentUpdatedNoticeDefault (s : ServerState) (_uri : URI) :
    ServerState :=
  s

/-- `virtual void documentContentUpdated(uri, version?, range, text) {}`
— default: no state change. -/
def Server.documentContentUpdatedRangeDefault (s : ServerState) (_uri : URI)
    (_version : Option Int) (_range : Range) (_text : List Char) : ServerState :=
  s

/-- `virtual void documentClosed(URI const&) {}` — default: no state
change. -/
def Server.documentClosedDefault (s : ServerState) (_uri : URI) : ServerState :=
  s

/-- `virtual std::vector<Location> gotoDefinition(DocumentPosition) { return {}; }`
— default: empty result. -/
def Server.gotoDefinitionDefault (_position : DocumentPosition) : List Location :=
  []

/-- `virtual std::vector<DocumentHighlight> semanticHighlight(DocumentPosition) { return {}; }`
— default: empty result. -/
def Server.semanticHighlightDefault (_documentPosition : DocumentPosition) :
    List DocumentHighlight :=
  []

/-- `virtual std::vector<Location> references(DocumentPosition) { return {}; }`
— default: empty result. -/
def Server.referencesDefault (_documentPosition : DocumentPosition) : List Location :=
  []

/-! ## LanguageServer::findAllReferences

libsolidity/lsp/LanguageServer.h defines two inline wrappers (lines
92–101 and 111–122) that guard a null `Declaration` pointer before
delegating to the named overloads (whose bodies are not in the tree and
which are taken as parameters here).  A `Declaration const*` is embedded
as `Option Declaration`; `_declaration->name()` as the `name` field
projection. -/

/-- A `frontend::Declaration`; the wrappers read only its `name()`. -/
structure Declaration where
  name : String
deriving DecidableEq, Repr

/-- A `frontend::SourceUnit`, identified abstractly. -/
structure SourceUnit where
  id : Nat
deriving DecidableEq, Repr

/-- The value-returning wrapper
`findAllReferences(Declaration const*, SourceUnit const&)`: returns
`findAllReferences(decl, decl->name(), sourceUnit)` when the pointer is
non-null, the empty vector otherwise. -/
def LanguageServer.findAllReferencesValue
    (inner : Declaration → String → SourceUnit → List DocumentHighlight)
    (_declaration : Option Declaration) (_sourceUnit : SourceUnit) :
    List DocumentHighlight :=
  match _declaration with
  | some d => inner d d.name _sourceUnit
  | none => []

/-- The output-parameter wrapper
`findAllReferences(Declaration const*, SourceUnit const&, URI const&, std::vector<Location>&)`:
returns immediately on a null pointer, leaving the output vector
untouched; otherwise delegates with `decl->name()`. -/
def LanguageServer.findAllReferencesOut
    (inner : Declaration → String → SourceUnit → URI → List Location → List Location)
    (_declaration : Option Declaration) (_sourceUnit : SourceUnit)
    (_sourceUnitUri : URI) (_output : List Location) : List Location :=
  match _declaration with
  | none => _output
  | some d => inner d d.name _sourceUnit _sourceUnitUri _output

/-! ## Document Store lemmas -/

/-- Looking a URI up after `insertFile`: the inserted file under the
inserted URI, the old store everywhere else. -/
theorem VFS.get_insertFile (vfs : VFS) (uri u : URI) (f : File) :
    (vfs.insertFile uri f).get u = if u = uri then some f else vfs.get u := by
  induction vfs with
  | nil =>
      by_cases h : u = uri
      · subst h; simp [VFS.insertFile, VFS.get]
      · simp [VFS.insertFile, VFS.get, h, Ne.symm h]
  | cons p rest ih =>
      obtain ⟨k, g⟩ := p
      by_cases hk : k = uri
      · subst hk
        by_cases hu : u = k
        · subst hu; simp [VFS.insertFile, VFS.get]
        · simp [VFS.insertFile, VFS.get, hu, Ne.symm hu]
      · by_cases hu : k = u
        · subst hu
          simp [VFS.insertFile, VFS.get, hk, Ne.symm hk]
        · simp [VFS.insertFile, VFS.get, hk, hu, ih]

/-- Looking a URI up after `close`: the stored file marked closed under
the closed URI, the old store everywhere else. -/
theorem VFS.get_close (vfs : VFS) (uri u : URI) :
    (vfs.close uri).get u =
      if u = uri then (vfs.get u).map (fun f => { f with closed := true })
      else vfs.get u := by
  induction vfs with
  | nil => simp [VFS.close, VFS.get]
  | cons p rest ih =>
      obtain ⟨k, g⟩ := p
      by_cases hk : k = uri
      · subst hk
        by_cases hu : k = u
        · subst hu; simp [VFS.close, VFS.get]
        · simp [VFS.close, VFS.get, hu, Ne.symm hu]
      · by_cases hu : k = u
        · subst hu
          simp [VFS.close, VFS.get, hk, Ne.symm hk]
        · simp [VFS.close, VFS.get, hk, hu, ih]

/-- A document present in the store stays present across any single
store operation. -/
theorem VFS.applyOp_keeps_present (vfs : VFS) (op : VfsOp) (uri : URI)
    (h : (vfs.get uri).isSome = true) :
    ((vfs.applyOp op) |>.get uri).isSome = true := by
  cases op with
  | openOp u lid ver content =>
      simp only [VFS.applyOp, VFS.openDoc, VFS.get_insertFile]
      by_cases hu : uri = u <;> simp [hu, h]
  | fullOp u ver content =>
      simp only [VFS.applyOp]
      cases hap : vfs.applyFull u ver content with
      | error e => simpa using h
      | ok v =>
          unfold VFS.applyFull at hap
          split at hap <;> try exact Except.noConfusion hap
          simp only [Except.ok.injEq] at hap
          subst hap
          simp only [VFS.get_insertFile]
          by_cases hu : uri = u <;> simp [hu, h]
  | rangeOp u ver range text =>
      simp only [VFS.applyOp]
      cases hap : vfs.applyRange u ver range text with
      | error e => simpa using h
      | ok v =>
          unfold VFS.applyRange at hap
          split at hap <;> try exact Except.noConfusion hap
          split at hap <;> try exact Except.noConfusion hap
          split at hap <;> try exact Except.noConfusion hap
          simp only [Except.ok.injEq] at hap
          subst hap
          simp only [VFS.get_insertFile]
          by_cases hu : uri = u <;> simp [hu, h]
  | closeOp u =>
      simp only [VFS.applyOp, VFS.get_close]
      by_cases hu : uri = u
      · subst hu; simpa using h
      · simpa [hu] using h

/-- A sample document, used to instantiate the conditional claim
theorems at a concrete input. -/
def sampleFile : File :=
  { uri := "file:///a.sol", languageId := "solidity", version := some 1,
    content := ['a'], closed := false }

/-- A sample one-document store, used to instantiate the conditional
claim theorems at a concrete input. -/
def sampleStore : VFS :=
  [("file:///a.sol", sampleFile)]

/-! ## Dispatch-table lemmas -/

/-- Registering under a name and looking that name up finds exactly the
handler just registered (so the last registration wins). -/
theorem lookupHandler_registerHandler_self (mp : HandlerMap) (name : String)
    (v : HandlerTag) :
    lookupHandler (registerHandler mp name v) name = some v := by
  induction mp with
  | nil => simp [registerHandler, lookupHandler]
  | cons p rest ih =>
      obtain ⟨k, w⟩ := p
      by_cases hk : k = name
      · subst hk; simp [registerHandler, lookupHandler]
      · simp [registerHandler, lookupHandler, hk, ih]

/-- A successful lookup returns an entry of the table whose key is
exactly the queried name. -/
theorem lookupHandler_mem (mp : HandlerMap) (name : String) (tag : HandlerTag)
    (h : lookupHandler mp name = some tag) : (name, tag) ∈ mp := by
  induction mp with
  | nil => simp [lookupHandler] at h
  | cons p rest ih =>
      obtain ⟨k, w⟩ := p
      by_cases hk : k = name
      · subst hk
        simp [lookupHandler] at h
        subst h
        exact List.mem_cons_self _ _
      · simp only [lookupHandler, if_neg hk] at h
        exact List.mem_cons_of_mem _ (ih h)

/-- A name matching no key of the table looks up to nothing. -/
theorem lookupHandler_none (mp : HandlerMap) (name : String)
    (h : ∀ p ∈ mp, p.1 ≠ name) : lookupHandler mp name = none := by
  induction mp with
  | nil => rfl
  | cons p rest ih =>
      obtain ⟨k, w⟩ := p
      simp only [lookupHandler, if_neg (h (k, w) (List.mem_cons_self _ _))]
      exact ih fun q hq => h q (List.mem_cons_of_mem _ hq)

set_option maxHeartbeats 2000000 in
/-- The dispatch table built at construction is the registration list
itself: the method names are pairwise distinct, so no registration
overwrites another. -/
theorem buildHandlerMap_eq : buildHandlerMap = registrations := by decide

/-- In the constructed table, only the method name
`"workspace/didChangeConfiguration"` is bound to the configuration
handler. -/
theorem lookup_config_name (name : String)
    (h : lookupHandler buildHandlerMap name = some .didChangeConfiguration) :
    name = "workspace/didChangeConfiguration" := by
  have hmem := lookupHandler_mem _ _ _ h
  rw [buildHandlerMap_eq] at hmem
  simp only [registrations, List.mem_cons, List.not_mem_nil, or_false,
    Prod.mk.injEq] at hmem
  rcases hmem with h1 | h1 | h1 | h1 | h1 | h1 | h1 | h1 | h1 | h1 | h1 <;>
    first
      | exact h1.1
      | exact absurd h1.2 (by decide)

/-- In the constructed table, only the method name `"shutdown"` is bound
to the shutdown handler. -/
theorem lookup_shutdown_name (name : String)
    (h : lookupHandler buildHandlerMap name = some .shutdownRequest) :
    name = "shutdown" := by
  have hmem := lookupHandler_mem _ _ _ h
  rw [buildHandlerMap_eq] at hmem
  simp only [registrations, List.mem_cons, List.not_mem_nil, or_false,
    Prod.mk.injEq] at hmem
  rcases hmem with h1 | h1 | h1 | h1 | h1 | h1 | h1 | h1 | h1 | h1 | h1 <;>
    first
      | exact h1.1
      | exact absurd h1.2 (by decide)

/-! ## Handler-execution lemmas -/

/-- Running any handler never touches the dispatch table, and touches
the trace level, the shutdown flag and the exit flag only from the
configuration, shutdown and exit handlers respectively. -/
theorem execHandler_preserved_fields (tag : HandlerTag) (s : ServerState)
    (m : Message) :
    (execHandler tag s m).1.m_handlers = s.m_handlers ∧
    (tag ≠ .didChangeConfiguration →
      (execHandler tag s m).1.m_trace = s.m_trace) ∧
    (tag ≠ .shutdownRequest →
      (execHandler tag s m).1.m_shutdownRequested = s.m_shutdownRequested) ∧
    (tag ≠ .exitNotification →
      (execHandler tag s m).1.m_exitRequested = s.m_exitRequested) := by
  obtain ⟨mid, mmethod, mparams⟩ := m
  cases tag <;> cases mparams <;>
    simp only [execHandler, LanguageServer.documentContentUpdatedRange] <;>
    refine ⟨?_, ?_, ?_, ?_⟩ <;>
    (try intro hne) <;>
    first
      | rfl
      | exact trivial
      | exact absurd rfl hne
      | (split <;> rfl)

/-- Routing a message preserves the dispatch table. -/
theorem dispatch_m_handlers (s : ServerState) (m : Message) :
    (dispatch s m).1.m_handlers = s.m_handlers := by
  unfold dispatch
  split
  · split <;> rfl
  · rename_i tag heq
    exact (execHandler_preserved_fields tag s m).1

/-- Handling a message never mutates the dispatch table. -/
theorem handleMessage_m_handlers (s : ServerState) (m : Message) :
    (handleMessage s m).1.m_handlers = s.m_handlers := by
  unfold handleMessage
  split
  · split_ifs
    · exact dispatch_m_handlers s m
    · exact (execHandler_preserved_fields .exitNotification s m).1
    · rfl
    · rfl
  · split_ifs
    · exact (execHandler_preserved_fields .exitNotification s m).1
    · rfl
    · rfl
  · rfl
  · exact dispatch_m_handlers s m
  · exact dispatch_m_handlers s m

/-- Under the constructed dispatch table, routing preserves the trace
level unless the message is `workspace/didChangeConfiguration`, and the
shutdown flag unless the message is `shutdown`. -/
theorem dispatch_preserved_fields (s : ServerState) (m : Message)
    (hh : s.m_handlers = buildHandlerMap) :
    (m.method ≠ "workspace/didChangeConfiguration" →
      (dispatch s m).1.m_trace = s.m_trace) ∧
    (m.method ≠ "shutdown" →
      (dispatch s m).1.m_shutdownRequested = s.m_shutdownRequested) := by
  unfold dispatch
  rw [hh]
  split
  · constructor <;> intro hm <;> split <;> rfl
  · rename_i tag hl
    constructor <;> intro hm
    · refine (execHandler_preserved_fields tag s m).2.1 ?_
      intro htag
      subst htag
      exact hm (lookup_config_name m.method hl)
    · refine (execHandler_preserved_fields tag s m).2.2.1 ?_
      intro htag
      subst htag
      exact hm (lookup_shutdown_name m.method hl)

/-- Under the constructed dispatch table, handling a message preserves
the trace level unless the method is
`workspace/didChangeConfiguration`, and the shutdown flag unless the
method is `shutdown`. -/
theorem handleMessage_preserved_fields (s : ServerState) (m : Message)
    (hh : s.m_handlers = buildHandlerMap) :
    (m.method ≠ "workspace/didChangeConfiguration" →
      (handleMessage s m).1.m_trace = s.m_trace) ∧
    (m.method ≠ "shutdown" →
      (handleMessage s m).1.m_shutdownRequested = s.m_shutdownRequested) := by
  unfold handleMessage
  split <;>
    try exact ⟨fun hm => (dispatch_preserved_fields s m hh).1 hm,
               fun hm => (dispatch_preserved_fields s m hh).2 hm⟩
  · split_ifs <;>
      first
        | exact ⟨fun hm => (dispatch_preserved_fields s m hh).1 hm,
                 fun hm => (dispatch_preserved_fields s m hh).2 hm⟩
        | exact ⟨fun _ => (execHandler_preserved_fields .exitNotification s m).2.1
                   (by simp),
                 fun _ => (execHandler_preserved_fields .exitNotification s m).2.2.1
                   (by simp)⟩
  · split_ifs <;>
      first
        | exact ⟨fun _ => (execHandler_preserved_fields .exitNotification s m).2.1
                   (by simp),
                 fun _ => (execHandler_preserved_fields .exitNotification s m).2.2.1
                   (by simp)⟩
  · exact ⟨fun _ => rfl, fun _ => rfl⟩

/-! ## Lifecycle-gating lemmas -/

/-- Before `initialize`, any message other than an `initialize` request
or an `exit` notification is rejected without dispatch: requests get
`ServerNotInitialized`, notifications are dropped, the state is
untouched. -/
theorem handleMessage_uninitialized_eq (s : ServerState) (m : Message)
    (hstate : s.lifecycle = .Uninitialized)
    (hinit : m.method ≠ "initialize")
    (hexit : m.isNotification = true → m.method ≠ "exit") :
    handleMessage s m =
      if m.isNotification then (s, none)
      else (s, some (.errorResp m.id .ServerNotInitialized)) := by
  unfold handleMessage
  rw [hstate]
  dsimp only
  rw [if_neg hinit, if_neg ?hc]
  case hc =>
    rintro ⟨he, hn⟩
    exact hexit hn he

/-- After `shutdown` (and before `exit`), any request other than `exit`
is answered `InvalidRequest` and the state is untouched. -/
theorem handleMessage_shutdown_other_eq (s : ServerState) (m : Message)
    (hstate : s.lifecycle = .ShutdownRequested)
    (hreq : m.isNotification = false)
    (hexit : m.method ≠ "exit") :
    handleMessage s m = (s, some (.errorResp m.id .InvalidRequest)) := by
  unfold handleMessage
  rw [hstate]
  dsimp only
  rw [if_neg hexit]
  simp [hreq]

/-- After `shutdown`, an `exit` message runs the exit handler: the exit
flag is raised, the shutdown flag is carried over unchanged, and no
response is produced. -/
theorem handleMessage_shutdown_exit_eq (s : ServerState) (m : Message)
    (hstate : s.lifecycle = .ShutdownRequested)
    (hexit : m.method = "exit") :
    handleMessage s m =
      ({ s with lifecycle := .Exited, m_exitRequested := true }, none) := by
  unfold handleMessage
  rw [hstate]
  dsimp only
  rw [if_pos hexit]
  rfl

/-- The `exit` entry of the constructed dispatch table. -/
theorem lookup_exit : lookupHandler buildHandlerMap "exit" = some .exitNotification := by
  decide

/-- The `shutdown` entry of the constructed dispatch table. -/
theorem lookup_shutdown :
    lookupHandler buildHandlerMap "shutdown" = some .shutdownRequest := by
  decide

/-- Before `initialize`, an `exit` notification still runs the exit
handler: the exit flag is raised and the shutdown flag (still carrying
whether `shutdown` was ever handled) is carried over unchanged. -/
theorem handleMessage_uninit_exit_eq (s : ServerState) (m : Message)
    (hstate : s.lifecycle = .Uninitialized)
    (hmethod : m.method = "exit") (hnotif : m.isNotification = true) :
    handleMessage s m =
      ({ s with lifecycle := .Exited, m_exitRequested := true }, none) := by
  unfold handleMessage
  rw [hstate]
  dsimp only
  have hne : m.method ≠ "initialize" := by rw [hmethod]; decide
  rw [if_neg hne, if_pos ⟨hmethod, hnotif⟩]
  rfl

/-- In the initialized state, an `exit` message is routed through the
dispatch table to the exit handler: the exit flag is raised and the
shutdown flag is carried over unchanged. -/
theorem handleMessage_initialized_exit_eq (s : ServerState) (m : Message)
    (hstate : s.lifecycle = .Initialized)
    (hh : s.m_handlers = buildHandlerMap)
    (hmethod : m.method = "exit") :
    handleMessage s m =
      ({ s with lifecycle := .Exited, m_exitRequested := true }, none) := by
  unfold handleMessage
  rw [hstate]
  dsimp only
  unfold dispatch
  rw [hh, hmethod, lookup_exit]
  simp [execHandler, hh]

/-- In the initialized state, a `shutdown` message is routed through the
dispatch table to the shutdown handler, which raises the shutdown flag
and still answers the request successfully. -/
theorem handleMessage_shutdown_request_eq (s : ServerState) (m : Message)
    (hstate : s.lifecycle = .Initialized)
    (hh : s.m_handlers = buildHandlerMap)
    (hmethod : m.method = "shutdown") :
    handleMessage s m =
      ({ s with lifecycle := .ShutdownRequested, m_shutdownRequested := true },
       some (.success m.id)) := by
  unfold handleMessage
  rw [hstate]
  dsimp only
  unfold dispatch
  rw [hh, hmethod, lookup_shutdown]
  simp [execHandler, hh]

/-- In the initialized state, a message whose method is not in the
dispatch table is answered `MethodNotFound` (requests) or dropped
(notifications), leaving the state untouched. -/
theorem handleMessage_unknown_eq (s : ServerState) (m : Message)
    (hstate : s.lifecycle = .Initialized)
    (hlook : lookupHandler s.m_handlers m.method = none) :
    handleMessage s m =
      if m.isNotification then (s, none)
      else (s, some (.errorResp m.id .MethodNotFound)) := by
  unfold handleMessage
  rw [hstate]
  dsimp only
  unfold dispatch
  rw [hlook]

/-! ## Claim theorems -/

/-- C6: a document opened via `didOpen` is never physically removed from
the Document Store: `close` only marks it closed, retaining its content
byte for byte, `get` on its URI still finds it, and no store operation
whatsoever removes a present document. -/
theorem closed_documents_are_retained :
    (∀ (vfs : VFS) (uri : URI) (f : File), vfs.get uri = some f →
        (vfs.close uri).get uri = some { f with closed := true }) ∧
    (∀ (vfs : VFS) (uri : URI) (f : File), vfs.get uri = some f →
        ((vfs.close uri).get uri).map File.content = some f.content) ∧
    (∀ (vfs : VFS) (op : VfsOp) (uri : URI), (vfs.get uri).isSome = true →
        ((vfs.applyOp op).get uri).isSome = true) := by
  refine ⟨?_, ?_, fun vfs op uri h => VFS.applyOp_keeps_present vfs op uri h⟩
  · intro vfs uri f h
    simp [VFS.get_close, h]
  · intro vfs uri f h
    simp [VFS.get_close, h]

/-- C6 witness: a store holding one open document; closing it keeps it
findable with identical content, and the close operation keeps it
present. -/
theorem closed_documents_are_retained_witness :
    ((sampleStore.close "file:///a.sol").get "file:///a.sol" =
      some { sampleFile with closed := true }) ∧
    ((sampleStore.applyOp (.closeOp "file:///a.sol")).get
        "file:///a.sol").isSome = true := by
  constructor
  · exact closed_documents_are_retained.1 sampleStore "file:///a.sol" sampleFile
      (by decide)
  · exact closed_documents_are_retained.2.2 sampleStore
      (.closeOp "file:///a.sol") "file:///a.sol" (by decide)

/-- C5: a range patch whose range exceeds the current content bounds of
an open document fails with `InvalidRange`, leaving the stored document
content byte for byte unchanged (all-or-nothing, never a partial
mutation). -/
theorem out_of_range_patch_is_all_or_nothing (s : ServerState) (uri : URI)
    (version : Option Int) (range : Range) (text : List Char) (f : File)
    (hget : s.m_vfs.get uri = some f)
    (hbounds : posToOffset f.content range.start = none ∨
               posToOffset f.content range.stop = none) :
    LanguageServer.documentContentUpdatedRange s uri version range text
      = (s, some VfsError.InvalidRange) ∧
    (LanguageServer.documentContentUpdatedRange s uri version range text).1.m_vfs
      = s.m_vfs := by
  have happ : s.m_vfs.applyRange uri version range text = .error .InvalidRange := by
    unfold VFS.applyRange
    split
    · rename_i hg
      rw [hget] at hg
      exact Option.noConfusion hg
    · rename_i f2 hg
      rw [hget] at hg
      injection hg with hf
      subst hf
      rcases hbounds with h1 | h2
      · rw [h1]
      · rw [h2]
        cases posToOffset f.content range.start <;> rfl
  constructor
  · unfold LanguageServer.documentContentUpdatedRange
    rw [happ]
  · unfold LanguageServer.documentContentUpdatedRange
    rw [happ]

/-- C5 witness: patching `"a"` (one character) at range (0,0)–(0,5) is
out of bounds; the operation reports `InvalidRange` and the store is
unchanged. -/
theorem out_of_range_patch_is_all_or_nothing_witness :
    LanguageServer.documentContentUpdatedRange
      { initialServerState with m_vfs := sampleStore }
      "file:///a.sol" (some 2)
      { start := { line := 0, character := 0 }, stop := { line := 0, character := 5 } }
      ['a', 'b']
      = ({ initialServerState with m_vfs := sampleStore },
         some VfsError.InvalidRange) := by
  exact (out_of_range_patch_is_all_or_nothing
    { initialServerState with m_vfs := sampleStore } "file:///a.sol" (some 2)
    { start := { line := 0, character := 0 }, stop := { line := 0, character := 5 } }
    ['a', 'b'] sampleFile (by decide) (Or.inr (by decide))).1

/-- C7: every capability hook of the base Server has a safe default —
the notification-style hooks change no state for any input, and the
query hooks return the empty list for any input. -/
theorem default_hooks_are_safe :
    (∀ s : ServerState, Server.initializedDefault s = s) ∧
    (∀ (s : ServerState) (v : JsonValue), Server.changeConfigurationDefault s v = s) ∧
    (∀ (s : ServerState) (uri : URI) (lid : String) (ver : Int) (content : List Char),
        Server.documentOpenedDefault s uri lid ver content = s) ∧
    (∀ (s : ServerState) (uri : URI) (ver : Option Int) (content : List Char),
        Server.documentContentUpdatedFullDefault s uri ver content = s) ∧
    (∀ (s : ServerState) (uri : URI),
        Server.documentContentUpdatedNoticeDefault s uri = s) ∧
    (∀ (s : ServerState) (uri : URI) (ver : Option Int) (range : Range)
        (text : List Char),
        Server.documentContentUpdatedRangeDefault s uri ver range text = s) ∧
    (∀ (s : ServerState) (uri : URI), Server.documentClosedDefault s uri = s) ∧
    (∀ p : DocumentPosition, Server.gotoDefinitionDefault p = []) ∧
    (∀ p : DocumentPosition, Server.semanticHighlightDefault p = []) ∧
    (∀ p : DocumentPosition, Server.referencesDefault p = []) :=
  ⟨fun _ => rfl, fun _ _ => rfl, fun _ _ _ _ _ => rfl, fun _ _ _ _ => rfl,
   fun _ _ => rfl, fun _ _ _ _ _ => rfl, fun _ _ => rfl,
   fun _ => rfl, fun _ => rfl, fun _ => rfl⟩

/-- C9: both `findAllReferences` wrappers guard the null `Declaration`
pointer — the value-returning wrapper yields the empty list, the
output-parameter wrapper leaves the output untouched, and in both the
declaration's name is read only in the non-null branch, where the
wrapper delegates with exactly `decl->name()`. -/
theorem findAllReferences_null_declaration_guard :
    (∀ (inner : Declaration → String → SourceUnit → List DocumentHighlight)
        (su : SourceUnit),
        LanguageServer.findAllReferencesValue inner none su = []) ∧
    (∀ (inner : Declaration → String → SourceUnit → URI → List Location → List Location)
        (su : SourceUnit) (uri : URI) (out : List Location),
        LanguageServer.findAllReferencesOut inner none su uri out = out) ∧
    (∀ (inner : Declaration → String → SourceUnit → List DocumentHighlight)
        (d : Declaration) (su : SourceUnit),
        LanguageServer.findAllReferencesValue inner (some d) su = inner d d.name su) ∧
    (∀ (inner : Declaration → String → SourceUnit → URI → List Location → List Location)
        (d : Declaration) (su : SourceUnit) (uri : URI) (out : List Location),
        LanguageServer.findAllReferencesOut inner (some d) su uri out
          = inner d d.name su uri out) :=
  ⟨fun _ _ => rfl, fun _ _ _ _ => rfl, fun _ _ _ => rfl, fun _ _ _ _ _ => rfl⟩

/-- C1: while no `initialize` request has been handled, handling any
request other than `initialize` — and any notification other than
`exit` — leaves the whole server state (in particular the hook-call
counter) unchanged, answers requests with `ServerNotInitialized`, and
silently drops notifications. -/
theorem uninitialized_rejects_without_hooks (s : ServerState) (m : Message)
    (hstate : s.lifecycle = .Uninitialized)
    (hinit : m.method ≠ "initialize")
    (hexit : m.isNotification = true → m.method ≠ "exit") :
    (handleMessage s m).1 = s ∧
    (handleMessage s m).1.hookCalls = s.hookCalls ∧
    (m.isNotification = false →
      (handleMessage s m).2 = some (.errorResp m.id .ServerNotInitialized)) ∧
    (m.isNotification = true → (handleMessage s m).2 = none) := by
  rw [handleMessage_uninitialized_eq s m hstate hinit hexit]
  cases hn : m.isNotification <;> simp [hn]

/-- C1 witness: a freshly constructed server rejects a
`textDocument/didOpen` request with id 7 with `ServerNotInitialized`,
changing nothing. -/
theorem uninitialized_rejects_without_hooks_witness :
    (handleMessage initialServerState
        { id := .int 7, method := "textDocument/didOpen",
          params := .didOpenParams "file:///a.sol" "solidity" 1 ['a'] }).1
      = initialServerState ∧
    (handleMessage initialServerState
        { id := .int 7, method := "textDocument/didOpen",
          params := .didOpenParams "file:///a.sol" "solidity" 1 ['a'] }).2
      = some (.errorResp (.int 7) .ServerNotInitialized) := by
  have h := uninitialized_rejects_without_hooks initialServerState
    { id := .int 7, method := "textDocument/didOpen",
      params := .didOpenParams "file:///a.sol" "solidity" 1 ['a'] }
    rfl (by decide) (by decide)
  exact ⟨h.1, h.2.2.1 rfl⟩

/-- C2: after `shutdown` has been handled, every request other than
`exit` is answered with an error (`InvalidRequest`) and the loop
continues; handling `exit` — in any state — terminates the loop,
reporting normal termination exactly when the shutdown flag was set
before the `exit`: the `shutdown` handler raises that flag, no other
method ever touches it, and an `exit` arriving while it is still clear
terminates the loop with the abnormal indication. -/
theorem shutdown_exit_discipline :
    (∀ (s : ServerState) (m : Message),
        s.lifecycle = .ShutdownRequested → m.isNotification = false →
        m.method ≠ "exit" →
        handleMessage s m = (s, some (.errorResp m.id .InvalidRequest))) ∧
    (∀ (s : ServerState) (fails : Nat) (m : Message) (rest : List ReadResult),
        s.lifecycle = .ShutdownRequested → m.isNotification = false →
        m.method ≠ "exit" → s.m_exitRequested = false →
        runLoop s fails (.ok m :: rest) = runLoop s 0 rest) ∧
    (∀ (s : ServerState) (fails : Nat) (m : Message) (rest : List ReadResult),
        s.lifecycle = .ShutdownRequested → m.method = "exit" →
        runLoop s fails (.ok m :: rest) = .exited s.m_shutdownRequested) ∧
    (∀ (s : ServerState) (m : Message),
        s.m_handlers = buildHandlerMap → m.method ≠ "shutdown" →
        (handleMessage s m).1.m_shutdownRequested = s.m_shutdownRequested) ∧
    (∀ (s : ServerState) (m : Message),
        s.lifecycle = .Initialized → s.m_handlers = buildHandlerMap →
        m.method = "shutdown" →
        (handleMessage s m).1.m_shutdownRequested = true ∧
        (handleMessage s m).2 = some (.success m.id)) ∧
    (∀ (s : ServerState) (fails : Nat) (m : Message) (rest : List ReadResult),
        s.lifecycle = .Initialized → s.m_handlers = buildHandlerMap →
        m.method = "exit" →
        runLoop s fails (.ok m :: rest) = .exited s.m_shutdownRequested) ∧
    (∀ (s : ServerState) (fails : Nat) (m : Message) (rest : List ReadResult),
        s.lifecycle = .Uninitialized → m.method = "exit" →
        m.isNotification = true →
        runLoop s fails (.ok m :: rest) = .exited s.m_shutdownRequested) ∧
    (∀ (s : ServerState) (fails : Nat) (m : Message) (rest : List ReadResult),
        s.m_shutdownRequested = false →
        (s.lifecycle = .Initialized ∧ s.m_handlers = buildHandlerMap ∨
          s.lifecycle = .Uninitialized ∧ m.isNotification = true) →
        m.method = "exit" →
        runLoop s fails (.ok m :: rest) = .exited false) := by
  have hinitexit : ∀ (s : ServerState) (fails : Nat) (m : Message)
      (rest : List ReadResult), s.lifecycle = .Initialized →
      s.m_handlers = buildHandlerMap → m.method = "exit" →
      runLoop s fails (.ok m :: rest) = .exited s.m_shutdownRequested := by
    intro s fails m rest hstate hh hexit
    simp only [runLoop, runStep,
      handleMessage_initialized_exit_eq s m hstate hh hexit]
    simp
  have huninitexit : ∀ (s : ServerState) (fails : Nat) (m : Message)
      (rest : List ReadResult), s.lifecycle = .Uninitialized →
      m.method = "exit" → m.isNotification = true →
      runLoop s fails (.ok m :: rest) = .exited s.m_shutdownRequested := by
    intro s fails m rest hstate hexit hnotif
    simp only [runLoop, runStep,
      handleMessage_uninit_exit_eq s m hstate hexit hnotif]
    simp
  refine ⟨?_, ?_, ?_, ?_, ?_, hinitexit, huninitexit, ?_⟩
  · intro s m hstate hreq hexit
    exact handleMessage_shutdown_other_eq s m hstate hreq hexit
  · intro s fails m rest hstate hreq hexit hnoexit
    simp only [runLoop, runStep,
      handleMessage_shutdown_other_eq s m hstate hreq hexit]
    simp [hnoexit]
  · intro s fails m rest hstate hexit
    simp only [runLoop, runStep, handleMessage_shutdown_exit_eq s m hstate hexit]
    simp
  · intro s m hh hm
    exact (handleMessage_preserved_fields s m hh).2 hm
  · intro s m hstate hh hm
    rw [handleMessage_shutdown_request_eq s m hstate hh hm]
    exact ⟨rfl, rfl⟩
  · intro s fails m rest hflag hcase hexit
    rcases hcase with ⟨hstate, hh⟩ | ⟨hstate, hnotif⟩
    · rw [hinitexit s fails m rest hstate hh hexit, hflag]
    · rw [huninitexit s fails m rest hstate hexit hnotif, hflag]

/-- C2 witness: in the shutdown-requested state a
`textDocument/definition` request with id 9 is answered
`InvalidRequest`; an `exit` notification after `shutdown` terminates
the loop with normal termination; handling `shutdown` in the
initialized state raises the shutdown flag; and an `exit` notification
in the initialized state with the flag still clear terminates the loop
with the abnormal indication. -/
theorem shutdown_exit_discipline_witness :
    handleMessage
      { initialServerState with
          lifecycle := .ShutdownRequested, m_shutdownRequested := true }
      { id := .int 9, method := "textDocument/definition", params := .noParams }
      = ({ initialServerState with
            lifecycle := .ShutdownRequested, m_shutdownRequested := true },
         some (.errorResp (.int 9) .InvalidRequest)) ∧
    runLoop
      { initialServerState with
          lifecycle := .ShutdownRequested, m_shutdownRequested := true }
      0 [.ok { id := .absent, method := "exit", params := .noParams }]
      = .exited true ∧
    (handleMessage { initialServerState with lifecycle := .Initialized }
        { id := .int 3, method := "shutdown", params := .noParams }).1.m_shutdownRequested
      = true ∧
    runLoop { initialServerState with lifecycle := .Initialized }
      0 [.ok { id := .absent, method := "exit", params := .noParams }]
      = .exited false := by
  refine ⟨?_, ?_, ?_, ?_⟩
  · exact shutdown_exit_discipline.1
      { initialServerState with
          lifecycle := .ShutdownRequested, m_shutdownRequested := true }
      { id := .int 9, method := "textDocument/definition", params := .noParams }
      rfl (by decide) (by decide)
  · exact shutdown_exit_discipline.2.2.1
      { initialServerState with
          lifecycle := .ShutdownRequested, m_shutdownRequested := true }
      0 { id := .absent, method := "exit", params := .noParams } []
      rfl (by decide)
  · exact (shutdown_exit_discipline.2.2.2.2.1
      { initialServerState with lifecycle := .Initialized }
      { id := .int 3, method := "shutdown", params := .noParams }
      rfl rfl (by decide)).1
  · exact shutdown_exit_discipline.2.2.2.2.2.2.2
      { initialServerState with lifecycle := .Initialized }
      0 { id := .absent, method := "exit", params := .noParams } []
      rfl (Or.inl ⟨rfl, rfl⟩) (by decide)

/-- C3: in the main read loop a failed read increments the
consecutive-failure counter, a successfully handled message resets it to
zero, and a failed read terminates the loop with the
abnormal-termination indication exactly when the incremented counter
exceeds the fixed threshold. -/
theorem consecutive_failure_counter_contract :
    (∀ (s : ServerState) (fails : Nat), fails + 1 ≤ maxConsecutiveFailures →
        runStep s fails .failed = .keepRunning s (fails + 1)) ∧
    (∀ (s : ServerState) (fails : Nat) (m : Message),
        (handleMessage s m).1.m_exitRequested = false →
        runStep s fails (.ok m) = .keepRunning (handleMessage s m).1 0) ∧
    (∀ (s : ServerState) (fails : Nat),
        runStep s fails .failed = .failTerm ↔
          fails + 1 > maxConsecutiveFailures) ∧
    (∀ (s : ServerState) (fails : Nat) (rest : List ReadResult),
        fails + 1 > maxConsecutiveFailures →
        runLoop s fails (.failed :: rest) = .failedThreshold) := by
  refine ⟨?_, ?_, ?_, ?_⟩
  · intro s fails h
    simp [runStep, Nat.not_lt.mpr h]
  · intro s fails m h
    simp [runStep, h]
  · intro s fails
    constructor
    · intro h
      by_contra hgt
      simp [runStep, hgt] at h
    · intro h
      simp [runStep, h]
  · intro s fails rest h
    simp [runLoop, runStep, h]

/-- C3 witness: from a zero counter a failed read continues with counter
one; at the threshold a further failed read terminates the loop
abnormally; a handled message resets the counter to zero. -/
theorem consecutive_failure_counter_contract_witness :
    runStep initialServerState 0 .failed = .keepRunning initialServerState 1 ∧
    runStep initialServerState maxConsecutiveFailures .failed = .failTerm ∧
    runStep initialServerState 5
        (.ok { id := .absent, method := "unknown/method", params := .noParams })
      = .keepRunning
          (handleMessage initialServerState
            { id := .absent, method := "unknown/method", params := .noParams }).1
          0 := by
  refine ⟨?_, ?_, ?_⟩
  · exact consecutive_failure_counter_contract.1 initialServerState 0 (by decide)
  · exact (consecutive_failure_counter_contract.2.2.1 initialServerState
      maxConsecutiveFailures).mpr (by decide)
  · exact consecutive_failure_counter_contract.2.1 initialServerState 5
      { id := .absent, method := "unknown/method", params := .noParams }
      (by decide)

/-- C4: a message whose method is not in the dispatch table is answered,
if it is a request, by an error response carrying the same id and the
code `MethodNotFound`; a notification is silently dropped; in both cases
the server state — in particular every stored document and version — is
unchanged and the loop continues. -/
theorem unknown_method_rejected (s : ServerState) (m : Message)
    (hstate : s.lifecycle = .Initialized)
    (hlook : lookupHandler s.m_handlers m.method = none) :
    (handleMessage s m).1 = s ∧
    (m.isNotification = false →
      (handleMessage s m).2 = some (.errorResp m.id .MethodNotFound)) ∧
    (m.isNotification = true → (handleMessage s m).2 = none) ∧
    (∀ uri, (handleMessage s m).1.m_vfs.get uri = s.m_vfs.get uri) ∧
    (∀ (fails : Nat) (rest : List ReadResult), s.m_exitRequested = false →
      runLoop s fails (.ok m :: rest) = runLoop s 0 rest) := by
  have heq := handleMessage_unknown_eq s m hstate hlook
  have h1 : (handleMessage s m).1 = s := by
    rw [heq]; cases hn : m.isNotification <;> simp [hn]
  refine ⟨h1, ?_, ?_, ?_, ?_⟩
  · intro hn
    rw [heq]
    simp [hn]
  · intro hn
    rw [heq]
    simp [hn]
  · intro uri
    rw [h1]
  · intro fails rest hnoexit
    simp only [runLoop, runStep, h1]
    simp [hnoexit, h1]

/-- C4 witness: the unknown method `"foo/bar"` on a request with id 7,
in the initialized state, is answered with id 7 and `MethodNotFound`,
and the store is untouched. -/
theorem unknown_method_rejected_witness :
    (handleMessage
        { initialServerState with lifecycle := .Initialized, m_vfs := sampleStore }
        { id := .int 7, method := "foo/bar", params := .noParams }).2
      = some (.errorResp (.int 7) .MethodNotFound) ∧
    (handleMessage
        { initialServerState with lifecycle := .Initialized, m_vfs := sampleStore }
        { id := .int 7, method := "foo/bar", params := .noParams }).1.m_vfs.get
        "file:///a.sol"
      = sampleStore.get "file:///a.sol" := by
  have h := unknown_method_rejected
    { initialServerState with lifecycle := .Initialized, m_vfs := sampleStore }
    { id := .int 7, method := "foo/bar", params := .noParams }
    rfl (by decide)
  exact ⟨h.2.1 rfl, h.2.2.2.1 "file:///a.sol"⟩

/-- C8: the dispatch table is built once at construction with pairwise
distinct method names, message handling never mutates it, lookup is
exact string match (a hit returns an entry whose key is literally the
queried name, and a name matching no key misses), and re-registering a
name makes the last registration win. -/
theorem dispatch_table_contract :
    (buildHandlerMap.map Prod.fst).Nodup ∧
    (∀ (s : ServerState) (m : Message),
        (handleMessage s m).1.m_handlers = s.m_handlers) ∧
    (∀ (mp : HandlerMap) (name : String) (v1 v2 : HandlerTag),
        lookupHandler (registerHandler (registerHandler mp name v1) name v2) name
          = some v2) ∧
    (∀ (mp : HandlerMap) (name : String) (tag : HandlerTag),
        lookupHandler mp name = some tag → (name, tag) ∈ mp) ∧
    (∀ (mp : HandlerMap) (name : String),
        (∀ p ∈ mp, p.1 ≠ name) → lookupHandler mp name = none) := by
  refine ⟨by decide, handleMessage_m_handlers, ?_, lookupHandler_mem,
    lookupHandler_none⟩
  intro mp name v1 v2
  exact lookupHandler_registerHandler_self (registerHandler mp name v1) name v2

/-- C8 witness: registering `"exit"` twice leaves the second handler;
the built table contains the exact-match entry for `"exit"`; a name not
among the keys misses. -/
theorem dispatch_table_contract_witness :
    lookupHandler
        (registerHandler (registerHandler [] "exit" .didOpen) "exit"
          .exitNotification) "exit"
      = some .exitNotification ∧
    ("exit", HandlerTag.exitNotification) ∈ buildHandlerMap ∧
    lookupHandler [("exit", HandlerTag.exitNotification)] "shutdown" = none := by
  refine ⟨dispatch_table_contract.2.2.1 [] "exit" .didOpen .exitNotification, ?_, ?_⟩
  · exact dispatch_table_contract.2.2.2.1 buildHandlerMap "exit" .exitNotification
      (by decide)
  · exact dispatch_table_contract.2.2.2.2 [("exit", .exitNotification)] "shutdown"
      (by decide)

/-- C10: a freshly constructed server has trace level `Off`; the
`trace()` accessor is a pure projection of the stored trace level; and
handling any message other than `workspace/didChangeConfiguration`
(under the constructed dispatch table) leaves the trace level
unchanged — only configuration handling assigns it. -/
theorem trace_level_contract :
    initialServerState.m_trace = Trace.Off ∧
    (∀ s : ServerState, Server.traceLevel s = s.m_trace) ∧
    (∀ (s : ServerState) (m : Message),
        s.m_handlers = buildHandlerMap →
        m.method ≠ "workspace/didChangeConfiguration" →
        (handleMessage s m).1.m_trace = s.m_trace) :=
  ⟨rfl, fun _ => rfl,
   fun s m hh hm => (handleMessage_preserved_fields s m hh).1 hm⟩

/-- C10 witness: handling a `textDocument/didClose` notification leaves
the trace level of a fresh initialized server at `Off`. -/
theorem trace_level_contract_witness :
    (handleMessage { initialServerState with lifecycle := .Initialized }
        { id := .absent, method := "textDocument/didClose",
          params := .didCloseParams "file:///a.sol" }).1.m_trace
      = Trace.Off := by
  exact trace_level_contract.2.2
    { initialServerState with lifecycle := .Initialized }
    { id := .absent, method := "textDocument/didClose",
      params := .didCloseParams "file:///a.sol" }
    rfl (by decide)

end LSP



